import Mathlib

/-!
Verification of the polymarket-trader core against its specification.

The definitions below are a shallow embedding of the Python source:
`lib/risk_manager.py` (RiskConfig, TrackedPosition, RiskManager),
`apps/contrarian_realtime.py` (LiveMarket, book ingestion, exit checks) and
`apps/realtime_trader.py` (Market).  Monetary amounts, prices and clock
values are modelled as rationals; Python dicts become association lists;
wall-clock reads (`time.time()`, the UTC day start) become explicit
parameters of each operation.
-/

namespace PolymarketTrader

/-- Mirrors `RiskConfig` from `lib/risk_manager.py`. -/
structure RiskConfig where
  min_trade_size : ℚ
  max_trade_size : ℚ
  default_trade_size : ℚ
  max_positions : ℕ
  max_per_market : ℚ
  max_total_exposure : ℚ
  daily_loss_limit : ℚ
  daily_trade_limit : ℕ
  trade_cooldown : ℚ
  global_cooldown : ℚ
  min_price : ℚ
  max_price : ℚ
  min_liquidity : ℚ
deriving DecidableEq, Repr

/-- The default field values of `RiskConfig` in the source. -/
def defaultRiskConfig : RiskConfig where
  min_trade_size := 5
  max_trade_size := 25
  default_trade_size := 10
  max_positions := 10
  max_per_market := 50
  max_total_exposure := 200
  daily_loss_limit := 50
  daily_trade_limit := 50
  trade_cooldown := 30
  global_cooldown := 5
  min_price := 0.05
  max_price := 0.95
  min_liquidity := 1000

/-- Mirrors `TrackedPosition` from `lib/risk_manager.py` (the optional
`order_id` plays no role in any claim and is kept as a plain string). -/
structure TrackedPosition where
  strategy : String
  market_question : String
  condition_id : String
  token_id : String
  outcome : String
  side : String
  entry_price : ℚ
  size_shares : ℚ
  size_usdc : ℚ
  entry_time : ℚ
deriving DecidableEq, Repr

/-- Association-list lookup, mirroring Python `dict` access by key. -/
def lookupA {α : Type} (l : List (String × α)) (k : String) : Option α :=
  match l with
  | [] => none
  | (k₂, v) :: rest => if k₂ = k then some v else lookupA rest k

/-- Association-list insert-or-replace, mirroring `d[k] = v` on a dict. -/
def setA {α : Type} (l : List (String × α)) (k : String) (v : α) :
    List (String × α) :=
  match l with
  | [] => [(k, v)]
  | (k₂, w) :: rest =>
      if k₂ = k then (k₂, v) :: rest else (k₂, w) :: setA rest k v

/-- Association-list removal of the first binding of a key, mirroring
`d.pop(k, None)` on a dict whose keys are unique. -/
def removeA {α : Type} (l : List (String × α)) (k : String) :
    List (String × α) :=
  match l with
  | [] => []
  | (k₂, w) :: rest =>
      if k₂ = k then rest else (k₂, w) :: removeA rest k

/-- Machine-readable rejection reasons: one constructor per reason string
produced by `RiskManager.check_trade` (plus `ok` for acceptance). -/
inductive Reason where
  | ok
  | halted
  | dailyLoss
  | dailyTradeLimit
  | tradeTooSmall
  | tradeTooLarge
  | priceTooLow
  | priceTooHigh
  | maxPositions
  | marketExposure
  | totalExposure
  | globalCooldown
  | marketCooldown
deriving DecidableEq, Repr

/-- The mutable state of a `RiskManager` instance.  `day_start` is the UTC
day boundary; the wall clock is passed into each operation explicitly. -/
structure RiskState where
  config : RiskConfig
  positions : List (String × TrackedPosition)
  daily_pnl : ℚ
  daily_trades : ℕ
  day_start : ℚ
  last_trade_time : ℚ
  last_trade_by_market : List (String × ℚ)
  halted : Bool
  halt_reason : Reason
deriving DecidableEq, Repr

/-- A freshly constructed `RiskManager` (no persisted state on disk). -/
def initState (cfg : RiskConfig) (day0 : ℚ) : RiskState where
  config := cfg
  positions := []
  daily_pnl := 0
  daily_trades := 0
  day_start := day0
  last_trade_time := 0
  last_trade_by_market := []
  halted := false
  halt_reason := .ok

/-- Sum of a rational-valued projection over the position ledger. -/
def sumBy (f : String × TrackedPosition → ℚ)
    (l : List (String × TrackedPosition)) : ℚ :=
  (l.map f).sum

/-- Mirrors the `total_exposure` property: sum of `size_usdc` over all
open positions. -/
def totalExposure (s : RiskState) : ℚ :=
  sumBy (fun p => p.2.size_usdc) s.positions

/-- Mirrors `get_market_exposure`: sum of `size_usdc` over the open
positions of one market. -/
def marketExposure (s : RiskState) (cid : String) : ℚ :=
  sumBy (fun p => if p.2.condition_id = cid then p.2.size_usdc else 0)
    s.positions

/-- Mirrors `position_count`. -/
def positionCount (s : RiskState) : ℕ := s.positions.length

/-- Mirrors `RiskManager._check_new_day`, with the currently computed UTC
day start passed in as a parameter. -/
def checkNewDay (s : RiskState) (currentDayStart : ℚ) : RiskState :=
  if s.day_start < currentDayStart then
    { s with daily_pnl := 0, daily_trades := 0,
             day_start := currentDayStart,
             halted := false, halt_reason := .ok }
  else s

/-- The guard chain of `RiskManager.check_trade` as run on the state
`s₀` left by the initial `_check_new_day()` call, returning the
`(allowed, reason)` pair the Python method returns.  The guards appear
in exactly the source's order. -/
def checkTradeVerdict (s₀ : RiskState)
    (strategy condition_id token_id : String)
    (price size_usdc : ℚ) (side : String) (now : ℚ) : Bool × Reason :=
  if s₀.halted then (false, .halted)
  else if s₀.daily_pnl ≤ -s₀.config.daily_loss_limit then
    (false, .dailyLoss)
  else if s₀.daily_trades ≥ s₀.config.daily_trade_limit then
    (false, .dailyTradeLimit)
  else if size_usdc < s₀.config.min_trade_size then
    (false, .tradeTooSmall)
  else if size_usdc > s₀.config.max_trade_size then
    (false, .tradeTooLarge)
  else if price < s₀.config.min_price then (false, .priceTooLow)
  else if price > s₀.config.max_price then (false, .priceTooHigh)
  else if side = "BUY" ∧ positionCount s₀ ≥ s₀.config.max_positions then
    (false, .maxPositions)
  else if side = "BUY" ∧
      marketExposure s₀ condition_id + size_usdc > s₀.config.max_per_market then
    (false, .marketExposure)
  else if side = "BUY" ∧
      totalExposure s₀ + size_usdc > s₀.config.max_total_exposure then
    (false, .totalExposure)
  else if now - s₀.last_trade_time < s₀.config.global_cooldown then
    (false, .globalCooldown)
  else if now - ((lookupA s₀.last_trade_by_market condition_id).getD 0) <
      s₀.config.trade_cooldown then
    (false, .marketCooldown)
  else (true, .ok)

/-- The only mutation the guard chain of `check_trade` performs: the
daily-loss guard is reached iff the session is not already halted, and
when it fires it trips the circuit breaker.  No later guard mutates. -/
def checkTradeEffect (s₀ : RiskState) : RiskState :=
  if s₀.halted = false ∧ s₀.daily_pnl ≤ -s₀.config.daily_loss_limit then
    { s₀ with halted := true, halt_reason := .dailyLoss }
  else s₀

/-- Mirrors `RiskManager.check_trade`.  Returns the (possibly mutated)
state together with the `(allowed, reason)` pair.  The wall clock `now`
and the current UTC day start `cds` are explicit parameters. -/
def checkTrade (s : RiskState) (strategy condition_id token_id : String)
    (price size_usdc : ℚ) (side : String) (now cds : ℚ) :
    RiskState × Bool × Reason :=
  let s₀ := checkNewDay s cds
  (checkTradeEffect s₀,
   checkTradeVerdict s₀ strategy condition_id token_id price size_usdc
     side now)

/-- The generated position id `f"{strategy[:3]}_{int(now)}_{len(positions)}"`. -/
def mkPosId (strategy : String) (now : ℚ) (n : ℕ) : String :=
  (strategy.take 3) ++ "_" ++ toString now.floor ++ "_" ++ toString n

/-- The `TrackedPosition` record `register_trade` constructs. -/
def mkTracked (strategy market_question condition_id token_id outcome
    side : String) (price size_shares size_usdc now : ℚ) :
    TrackedPosition :=
  { strategy := strategy, market_question := market_question,
    condition_id := condition_id, token_id := token_id,
    outcome := outcome, side := side, entry_price := price,
    size_shares := size_shares, size_usdc := size_usdc,
    entry_time := now }

/-- Mirrors `RiskManager.register_trade` (minus logging/persistence):
a BUY appends a ledger entry; both sides advance the cooldown clocks and
the daily trade counter. -/
def registerTrade (s : RiskState)
    (strategy market_question condition_id token_id outcome side : String)
    (price size_shares size_usdc : ℚ) (now : ℚ) : RiskState × String :=
  let posId := mkPosId strategy now s.positions.length
  let pos := mkTracked strategy market_question condition_id token_id
    outcome side price size_shares size_usdc now
  let s₁ :=
    if side = "BUY" then
      { s with positions := setA s.positions posId pos }
    else s
  ({ s₁ with last_trade_time := now,
             last_trade_by_market := setA s₁.last_trade_by_market condition_id now,
             daily_trades := s₁.daily_trades + 1 }, posId)

/-- Mirrors `RiskManager.close_position` (minus logging/persistence). -/
def closePosition (s : RiskState) (position_id : String)
    (exit_price realized_pnl : ℚ) : RiskState × Option TrackedPosition :=
  match lookupA s.positions position_id with
  | none => (s, none)
  | some pos =>
      let s₁ := { s with positions := removeA s.positions position_id,
                         daily_pnl := s.daily_pnl + realized_pnl,
                         daily_trades := s.daily_trades + 1 }
      let s₂ :=
        if s₁.daily_pnl ≤ -s₁.config.daily_loss_limit then
          { s₁ with halted := true, halt_reason := .dailyLoss }
        else s₁
      (s₂, some pos)

/-- Winning side of an opportunity (the source uses the strings
"up" / "down", or `None`). -/
inductive Side where
  | up
  | down
deriving DecidableEq, Repr

/-- Mirrors the `LiveMarket` dataclass of `apps/contrarian_realtime.py`. -/
structure LiveMarket where
  coin : String
  slug : String
  condition_id : String
  up_token : String
  down_token : String
  end_time : ℤ
  up_bid : ℚ
  up_ask : ℚ
  down_bid : ℚ
  down_ask : ℚ
  ref_price : ℚ
  start_price : ℚ
  binance_ticks : ℕ
  poly_ticks : ℕ
deriving DecidableEq, Repr

namespace LiveMarket

/-- Mirrors the `has_data` property. -/
def hasData (m : LiveMarket) : Bool :=
  decide (m.up_token ≠ "") && decide (0 < m.ref_price) &&
  decide (0 < m.start_price) && decide (0 < m.up_bid) &&
  decide (5 ≤ m.binance_ticks)

/-- Mirrors `LiveMarket.fair_value`.  The source computes
`1 / (1 + math.exp(k * pct_move))` with `k = 300`; the transcendental
`math.exp` is abstracted as an explicit function argument `expf` so that
the definition stays executable — every theorem below holds for an
arbitrary `expf`, or evaluates it only at points where its value is
pinned down by a hypothesis. -/
def fairValue (expf : ℚ → ℚ) (m : LiveMarket) : ℚ × ℚ :=
  if m.ref_price ≤ 0 ∨ m.start_price ≤ 0 then (0.5, 0.5)
  else
    let pct_move := (m.ref_price - m.start_price) / m.start_price
    let up_prob := 1 / (1 + expf (300 * pct_move))
    let up_prob := max 0.08 (min 0.92 up_prob)
    (up_prob, 1 - up_prob)

/-- The local `up_edge` value computed inside `LiveMarket.get_edge`. -/
def upEdge (expf : ℚ → ℚ) (m : LiveMarket) : ℚ :=
  if m.up_ask < 0.95 then (fairValue expf m).1 - m.up_ask else -1

/-- The local `down_edge` value computed inside `LiveMarket.get_edge`. -/
def downEdge (expf : ℚ → ℚ) (m : LiveMarket) : ℚ :=
  if m.down_ask < 0.95 then (fairValue expf m).2 - m.down_ask else -1

/-- Mirrors `LiveMarket.get_edge`: `none` plays the role of the
`(None, 0, 0, 0, "")` tuple. -/
def getEdge (expf : ℚ → ℚ) (m : LiveMarket) :
    Option (Side × ℚ × ℚ × ℚ × String) :=
  if hasData m = false then none
  else if upEdge expf m > downEdge expf m ∧ upEdge expf m > 0 then
    some (.up, upEdge expf m, (fairValue expf m).1, m.up_ask, m.up_token)
  else if downEdge expf m > 0 then
    some (.down, downEdge expf m, (fairValue expf m).2, m.down_ask,
      m.down_token)
  else none

end LiveMarket

/-- A stand-in for `math.exp` usable in concrete evaluations: the
first-order expansion `1 + x`, which agrees with the exponential at the
only point (`0`) where the concrete theorems below evaluate it. -/
def expLin : ℚ → ℚ := fun x => 1 + x

/-- Mirrors the `Market` dataclass of `apps/realtime_trader.py`. -/
structure Market where
  coin : String
  up_token : String
  down_token : String
  end_time : ℤ
  up_bid : ℚ
  up_ask : ℚ
  down_bid : ℚ
  down_ask : ℚ
  ref_price : ℚ
  start_price : ℚ
deriving DecidableEq, Repr

namespace Market

/-- Mirrors `Market.fair_value`: the linear model
`up_prob = 0.5 + pct * 40` clamped to `[0.1, 0.9]`. -/
def fairValue (m : Market) : ℚ × ℚ :=
  if m.ref_price ≤ 0 ∨ m.start_price ≤ 0 then (0.5, 0.5)
  else
    let pct := (m.ref_price - m.start_price) / m.start_price
    let up_prob := 0.5 + pct * 40
    let up_prob := max 0.1 (min 0.9 up_prob)
    (up_prob, 1 - up_prob)

/-- The local `up_edge` value computed inside `Market.get_edge`. -/
def upEdge (m : Market) : ℚ :=
  if m.up_ask < 0.95 then (fairValue m).1 - m.up_ask else -1

/-- The local `down_edge` value computed inside `Market.get_edge`. -/
def downEdge (m : Market) : ℚ :=
  if m.down_ask < 0.95 then (fairValue m).2 - m.down_ask else -1

/-- Mirrors `Market.get_edge` (no `has_data` guard in this variant). -/
def getEdge (m : Market) : Option (Side × ℚ × ℚ × ℚ) :=
  if upEdge m > downEdge m ∧ upEdge m > 0 then
    some (.up, upEdge m, (fairValue m).1, m.up_ask)
  else if downEdge m > 0 then
    some (.down, downEdge m, (fairValue m).2, m.down_ask)
  else none

end Market

/-- One price level of an order-book snapshot: the feed delivers either
`{"price": p, "size": s}` records or bare `[p, s]` arrays; both carry a
price at the front. -/
inductive Level where
  | pair (price size : ℚ)
  | bare (price : ℚ)
deriving DecidableEq, Repr

/-- Mirrors `ContrarianRealTimeTrader._best_price`: the price of the top
level, or `None` on an empty list. -/
def bestPrice : List Level → Option ℚ
  | [] => none
  | Level.pair p _ :: _ => some p
  | Level.bare p :: _ => some p

/-- An order-book snapshot message (`event_type == "book"`). -/
structure BookMsg where
  asset_id : String
  bids : List Level
  asks : List Level
deriving DecidableEq, Repr

/-- Mirrors the per-market body of `ContrarianRealTimeTrader._on_book`:
update the matching side's bid/ask from the snapshot's top levels and
bump the market's poly-feed tick counter. -/
def onBook (m : LiveMarket) (d : BookMsg) : LiveMarket :=
  if d.asset_id = m.up_token then
    { m with up_bid := (bestPrice d.bids).getD m.up_bid,
             up_ask := (bestPrice d.asks).getD m.up_ask,
             poly_ticks := m.poly_ticks + 1 }
  else if d.asset_id = m.down_token then
    { m with down_bid := (bestPrice d.bids).getD m.down_bid,
             down_ask := (bestPrice d.asks).getD m.down_ask,
             poly_ticks := m.poly_ticks + 1 }
  else m

/-- Exit reasons produced by `_check_exit` and the refresh loop. -/
inductive ExitReason where
  | take_profit
  | stop_loss
  | market_closing
  | trailing_stop
  | market_expired
deriving DecidableEq, Repr

/-- Mirrors the decision chain of `ContrarianRealTimeTrader._check_exit`
for one open position on one tick: `tp`/`sl` are the configured
thresholds, `entry` the entry price, `peak0` the stored high-water mark
before this tick, `bid` the current best bid on the position's side, and
`secsLeft` the market's `secs_left` (already clamped at zero).  The
high-water mark is raised to `max peak0 bid` before the checks, exactly
as in the source. -/
def exitDecision (tp sl entry peak0 bid : ℚ) (secsLeft : ℕ) :
    Option ExitReason :=
  if bid ≤ 0 then none
  else
    let peak := max peak0 bid
    let change := bid - entry
    if change ≥ tp then some .take_profit
    else if change ≤ -sl then some .stop_loss
    else if secsLeft ≤ 60 ∧ 0 < secsLeft then some .market_closing
    else if peak - entry ≥ 0.05 ∧ peak - bid ≥ 0.03 then
      some .trailing_stop
    else none

/-- First-match evaluation of an ordered list of (fired, label) checks. -/
def firstFail {α : Type} : List (Bool × α) → Option α
  | [] => none
  | (b, r) :: rest => if b then some r else firstFail rest

/-- The ordered list of the twelve risk checks of `check_trade`, each as
a (fired, reason) pair, evaluated on the post-`_check_new_day` state. -/
def checkConditions (s : RiskState) (condition_id : String)
    (price size_usdc : ℚ) (side : String) (now : ℚ) :
    List (Bool × Reason) :=
  [ (s.halted, .halted),
    (decide (s.daily_pnl ≤ -s.config.daily_loss_limit), .dailyLoss),
    (decide (s.daily_trades ≥ s.config.daily_trade_limit), .dailyTradeLimit),
    (decide (size_usdc < s.config.min_trade_size), .tradeTooSmall),
    (decide (size_usdc > s.config.max_trade_size), .tradeTooLarge),
    (decide (price < s.config.min_price), .priceTooLow),
    (decide (price > s.config.max_price), .priceTooHigh),
    (decide (side = "BUY" ∧ positionCount s ≥ s.config.max_positions),
      .maxPositions),
    (decide (side = "BUY" ∧
       marketExposure s condition_id + size_usdc > s.config.max_per_market),
      .marketExposure),
    (decide (side = "BUY" ∧
       totalExposure s + size_usdc > s.config.max_total_exposure),
      .totalExposure),
    (decide (now - s.last_trade_time < s.config.global_cooldown),
      .globalCooldown),
    (decide (now - ((lookupA s.last_trade_by_market condition_id).getD 0) <
       s.config.trade_cooldown), .marketCooldown) ]

/-- Rendering of the exit-priority chain exactly as the claim states it:
take-profit, stop-loss, market-closing, trailing-stop, market-expired,
first match wins.  This follows the claim, not the source; it is the
reference point the source's `exitDecision` is compared against. -/
def claimedExitOrder (tp sl entry peak0 bid : ℚ) (secsLeft : ℕ) :
    Option ExitReason :=
  let peak := max peak0 bid
  let change := bid - entry
  if change ≥ tp then some .take_profit
  else if change ≤ -sl then some .stop_loss
  else if secsLeft ≤ 60 ∧ 0 < secsLeft then some .market_closing
  else if peak - entry ≥ 0.05 ∧ peak - bid ≥ 0.03 then some .trailing_stop
  else if secsLeft = 0 then some .market_expired
  else none

/-- Mirrors the `secs_left` property of `LiveMarket`. -/
def secsLeftAt (m : LiveMarket) (now : ℤ) : ℕ :=
  (max 0 (m.end_time - now)).toNat

/-- Mirrors the force-close condition of
`ContrarianRealTimeTrader.market_refresh_loop`: a discovered market
(`up_token` set) within five seconds of expiry has its open position
closed unconditionally, journalled with reason `market_expired`. -/
def refreshForceClose (m : LiveMarket) (now : ℤ) (hasPos : Bool) :
    Option ExitReason :=
  if m.up_token ≠ "" ∧ secsLeftAt m now ≤ 5 ∧ hasPos then
    some .market_expired
  else none

/-- One observable operation on the shared risk ledger, as the claims
constrain them: a `check_trade` call (any arguments); an admitted trade,
that is a `register_trade` call performed on the state a `check_trade`
call with the same market, side and notional just returned
`allowed = true` on; or a `close_position` call. -/
inductive RiskStep : RiskState → RiskState → Prop
  | check (s : RiskState) (strategy condition_id token_id : String)
      (price size_usdc : ℚ) (side : String) (now cds : ℚ) :
      RiskStep s
        (checkTrade s strategy condition_id token_id price size_usdc side
          now cds).1
  | admitTrade (s : RiskState)
      (strategy market_question condition_id token_id outcome : String)
      (price size_shares size_usdc : ℚ) (side : String) (now cds now₂ : ℚ)
      (h : (checkTrade s strategy condition_id token_id price size_usdc
              side now cds).2.1 = true) :
      RiskStep s
        (registerTrade
          (checkTrade s strategy condition_id token_id price size_usdc side
            now cds).1
          strategy market_question condition_id token_id outcome side
          price size_shares size_usdc now₂).1
  | close (s : RiskState) (position_id : String) (exit_price pnl : ℚ) :
      RiskStep s (closePosition s position_id exit_price pnl).1

/-- Reachability of a ledger state from a fresh `RiskManager`. -/
def Reachable (cfg : RiskConfig) (day0 : ℚ) (s : RiskState) : Prop :=
  Relation.ReflTransGen RiskStep (initState cfg day0) s

@[simp] theorem checkNewDay_config (s : RiskState) (cds : ℚ) :
    (checkNewDay s cds).config = s.config := by
  unfold checkNewDay; split <;> rfl

@[simp] theorem checkNewDay_positions (s : RiskState) (cds : ℚ) :
    (checkNewDay s cds).positions = s.positions := by
  unfold checkNewDay; split <;> rfl

@[simp] theorem checkNewDay_last_trade_time (s : RiskState) (cds : ℚ) :
    (checkNewDay s cds).last_trade_time = s.last_trade_time := by
  unfold checkNewDay; split <;> rfl

@[simp] theorem checkNewDay_last_trade_by_market (s : RiskState) (cds : ℚ) :
    (checkNewDay s cds).last_trade_by_market = s.last_trade_by_market := by
  unfold checkNewDay; split <;> rfl

theorem checkNewDay_same_day (s : RiskState) (cds : ℚ)
    (h : cds ≤ s.day_start) : checkNewDay s cds = s := by
  unfold checkNewDay
  rw [if_neg (by exact not_lt.mpr h)]

@[simp] theorem checkTradeEffect_config (s₀ : RiskState) :
    (checkTradeEffect s₀).config = s₀.config := by
  unfold checkTradeEffect; split <;> rfl

@[simp] theorem checkTradeEffect_positions (s₀ : RiskState) :
    (checkTradeEffect s₀).positions = s₀.positions := by
  unfold checkTradeEffect; split <;> rfl

@[simp] theorem checkTradeEffect_last_trade_time (s₀ : RiskState) :
    (checkTradeEffect s₀).last_trade_time = s₀.last_trade_time := by
  unfold checkTradeEffect; split <;> rfl

@[simp] theorem checkTradeEffect_last_trade_by_market (s₀ : RiskState) :
    (checkTradeEffect s₀).last_trade_by_market =
      s₀.last_trade_by_market := by
  unfold checkTradeEffect; split <;> rfl

@[simp] theorem checkTradeEffect_daily_pnl (s₀ : RiskState) :
    (checkTradeEffect s₀).daily_pnl = s₀.daily_pnl := by
  unfold checkTradeEffect; split <;> rfl

@[simp] theorem checkTradeEffect_day_start (s₀ : RiskState) :
    (checkTradeEffect s₀).day_start = s₀.day_start := by
  unfold checkTradeEffect; split <;> rfl

@[simp] theorem checkTradeEffect_daily_trades (s₀ : RiskState) :
    (checkTradeEffect s₀).daily_trades = s₀.daily_trades := by
  unfold checkTradeEffect; split <;> rfl

/-- The state returned by `checkTrade` never differs from the input state
on the position ledger, the global cooldown clock, the per-market
cooldown clocks, or the configuration. -/
theorem checkTrade_frame (s : RiskState)
    (strategy condition_id token_id : String) (price size_usdc : ℚ)
    (side : String) (now cds : ℚ) :
    (checkTrade s strategy condition_id token_id price size_usdc side now
        cds).1.positions = s.positions ∧
    (checkTrade s strategy condition_id token_id price size_usdc side now
        cds).1.config = s.config ∧
    (checkTrade s strategy condition_id token_id price size_usdc side now
        cds).1.last_trade_time = s.last_trade_time ∧
    (checkTrade s strategy condition_id token_id price size_usdc side now
        cds).1.last_trade_by_market = s.last_trade_by_market := by
  unfold checkTrade
  simp

theorem mem_setA {α : Type} {l : List (String × α)} {k : String} {v : α}
    {q : String × α} (h : q ∈ setA l k v) : q ∈ l ∨ q.2 = v := by
  induction l with
  | nil =>
      simp [setA] at h
      simp [h]
  | cons hd tl ih =>
      by_cases hk : hd.1 = k
      · rw [show setA (hd :: tl) k v = (hd.1, v) :: tl by
          simp [setA, hk]] at h
        rcases List.mem_cons.mp h with h | h
        · simp [h]
        · exact Or.inl (List.mem_cons_of_mem hd h)
      · rw [show setA (hd :: tl) k v = hd :: setA tl k v by
          simp [setA, hk]] at h
        rcases List.mem_cons.mp h with h | h
        · exact Or.inl (by simp [h])
        · rcases ih h with h | h
          · exact Or.inl (List.mem_cons_of_mem hd h)
          · exact Or.inr h

theorem mem_removeA {α : Type} {l : List (String × α)} {k : String}
    {q : String × α} (h : q ∈ removeA l k) : q ∈ l := by
  induction l with
  | nil => simpa [removeA] using h
  | cons hd tl ih =>
      by_cases hk : hd.1 = k
      · rw [show removeA (hd :: tl) k = tl by simp [removeA, hk]] at h
        exact List.mem_cons_of_mem hd h
      · rw [show removeA (hd :: tl) k = hd :: removeA tl k by
          simp [removeA, hk]] at h
        rcases List.mem_cons.mp h with h | h
        · simp [h]
        · exact List.mem_cons_of_mem hd (ih h)

theorem sumBy_setA_le (f : String × TrackedPosition → ℚ)
    (l : List (String × TrackedPosition)) (k : String)
    (v : TrackedPosition) (hf : ∀ p ∈ l, 0 ≤ f p) :
    sumBy f (setA l k v) ≤ sumBy f l + f (k, v) := by
  induction l with
  | nil => simp [setA, sumBy]
  | cons hd tl ih =>
      by_cases hk : hd.1 = k
      · rw [show setA (hd :: tl) k v = (hd.1, v) :: tl by
          simp [setA, hk]]
        have h0 : 0 ≤ f hd := hf hd (List.mem_cons_self hd tl)
        have : f (hd.1, v) = f (k, v) := by rw [hk]
        simp only [sumBy, List.map_cons, List.sum_cons] at *
        linarith
      · rw [show setA (hd :: tl) k v = hd :: setA tl k v by
          simp [setA, hk]]
        have := ih fun p hp => hf p (List.mem_cons_of_mem hd hp)
        simp only [sumBy, List.map_cons, List.sum_cons] at *
        linarith

theorem sumBy_removeA_le (f : String × TrackedPosition → ℚ)
    (l : List (String × TrackedPosition)) (k : String)
    (hf : ∀ p ∈ l, 0 ≤ f p) :
    sumBy f (removeA l k) ≤ sumBy f l := by
  induction l with
  | nil => simp [removeA, sumBy]
  | cons hd tl ih =>
      have h0 : 0 ≤ f hd := hf hd (List.mem_cons_self hd tl)
      by_cases hk : hd.1 = k
      · rw [show removeA (hd :: tl) k = tl by simp [removeA, hk]]
        simp only [sumBy, List.map_cons, List.sum_cons]
        linarith
      · rw [show removeA (hd :: tl) k = hd :: removeA tl k by
          simp [removeA, hk]]
        have := ih fun p hp => hf p (List.mem_cons_of_mem hd hp)
        simp only [sumBy, List.map_cons, List.sum_cons] at *
        linarith

theorem totalExposure_congr {s t : RiskState}
    (h : t.positions = s.positions) : totalExposure t = totalExposure s := by
  unfold totalExposure; rw [h]

theorem marketExposure_congr {s t : RiskState}
    (h : t.positions = s.positions) (cid : String) :
    marketExposure t cid = marketExposure s cid := by
  unfold marketExposure; rw [h]

/-- What an `allowed = true` verdict says about the state it was computed
on: the notional is at least the configured minimum, and for a BUY the
per-market and total exposure caps leave room for it. -/
theorem checkTradeVerdict_allowed (s₀ : RiskState)
    (strategy condition_id token_id : String) (price size_usdc : ℚ)
    (side : String) (now : ℚ)
    (h : (checkTradeVerdict s₀ strategy condition_id token_id price
        size_usdc side now).1 = true) :
    s₀.halted = false ∧
    s₀.config.min_trade_size ≤ size_usdc ∧
    (side = "BUY" →
      marketExposure s₀ condition_id + size_usdc ≤
        s₀.config.max_per_market) ∧
    (side = "BUY" →
      totalExposure s₀ + size_usdc ≤ s₀.config.max_total_exposure) := by
  unfold checkTradeVerdict at h
  by_cases h1 : s₀.halted = true
  · rw [if_pos h1] at h; exact absurd h (by decide)
  rw [if_neg h1] at h
  by_cases h2 : s₀.daily_pnl ≤ -s₀.config.daily_loss_limit
  · rw [if_pos h2] at h; exact absurd h (by decide)
  rw [if_neg h2] at h
  by_cases h3 : s₀.daily_trades ≥ s₀.config.daily_trade_limit
  · rw [if_pos h3] at h; exact absurd h (by decide)
  rw [if_neg h3] at h
  by_cases h4 : size_usdc < s₀.config.min_trade_size
  · rw [if_pos h4] at h; exact absurd h (by decide)
  rw [if_neg h4] at h
  by_cases h5 : size_usdc > s₀.config.max_trade_size
  · rw [if_pos h5] at h; exact absurd h (by decide)
  rw [if_neg h5] at h
  by_cases h6 : price < s₀.config.min_price
  · rw [if_pos h6] at h; exact absurd h (by decide)
  rw [if_neg h6] at h
  by_cases h7 : price > s₀.config.max_price
  · rw [if_pos h7] at h; exact absurd h (by decide)
  rw [if_neg h7] at h
  by_cases h8 : side = "BUY" ∧ positionCount s₀ ≥ s₀.config.max_positions
  · rw [if_pos h8] at h; exact absurd h (by decide)
  rw [if_neg h8] at h
  by_cases h9 : side = "BUY" ∧
      marketExposure s₀ condition_id + size_usdc > s₀.config.max_per_market
  · rw [if_pos h9] at h; exact absurd h (by decide)
  rw [if_neg h9] at h
  by_cases h10 : side = "BUY" ∧
      totalExposure s₀ + size_usdc > s₀.config.max_total_exposure
  · rw [if_pos h10] at h; exact absurd h (by decide)
  rw [if_neg h10] at h
  refine ⟨by simpa using h1, not_lt.mp h4, ?_, ?_⟩
  · intro hb
    exact not_lt.mp fun hc => h9 ⟨hb, hc⟩
  · intro hb
    exact not_lt.mp fun hc => h10 ⟨hb, hc⟩

/-- The exposure safety predicate of the claim, together with the
bookkeeping fact (every ledger entry has nonnegative notional) that
makes it inductive. -/
def ExposureOK (s : RiskState) : Prop :=
  (∀ p ∈ s.positions, 0 ≤ p.2.size_usdc) ∧
  totalExposure s ≤ s.config.max_total_exposure ∧
  ∀ cid, marketExposure s cid ≤ s.config.max_per_market

theorem registerTrade_fields (s : RiskState)
    (strategy market_question condition_id token_id outcome side : String)
    (price size_shares size_usdc : ℚ) (now : ℚ) :
    (registerTrade s strategy market_question condition_id token_id
        outcome side price size_shares size_usdc now).1.config = s.config ∧
    (registerTrade s strategy market_question condition_id token_id
        outcome side price size_shares size_usdc now).1.positions =
      (if side = "BUY" then
        setA s.positions (mkPosId strategy now s.positions.length)
          (mkTracked strategy market_question condition_id token_id
            outcome side price size_shares size_usdc now)
      else s.positions) := by
  unfold registerTrade
  dsimp only
  split <;> simp

theorem exposureOK_congr {s t : RiskState} (hp : t.positions = s.positions)
    (hc : t.config = s.config) (hok : ExposureOK s) : ExposureOK t := by
  obtain ⟨h1, h2, h3⟩ := hok
  refine ⟨?_, ?_, ?_⟩
  · intro p hmem
    exact h1 p (hp ▸ hmem)
  · rw [totalExposure_congr hp, hc]
    exact h2
  · intro cid
    rw [marketExposure_congr hp, hc]
    exact h3 cid

/-- An admitted trade (a `register_trade` on the heels of an
`allowed = true` verdict with the same market, side and notional) keeps
the exposure invariant. -/
theorem exposureOK_register (s : RiskState)
    (strategy market_question condition_id token_id outcome : String)
    (price size_shares size_usdc : ℚ) (side : String) (now cds now₂ : ℚ)
    (hmin : 0 ≤ s.config.min_trade_size)
    (hallow : (checkTrade s strategy condition_id token_id price size_usdc
        side now cds).2.1 = true)
    (hok : ExposureOK s) :
    ExposureOK (registerTrade
      (checkTrade s strategy condition_id token_id price size_usdc side
        now cds).1
      strategy market_question condition_id token_id outcome side price
      size_shares size_usdc now₂).1 := by
  obtain ⟨hup, huc, -, -⟩ :=
    checkTrade_frame s strategy condition_id token_id price size_usdc
      side now cds
  obtain ⟨hrc, hrp⟩ :=
    registerTrade_fields
      (checkTrade s strategy condition_id token_id price size_usdc side
        now cds).1
      strategy market_question condition_id token_id outcome side price
      size_shares size_usdc now₂
  have hv : (checkTradeVerdict (checkNewDay s cds) strategy condition_id
      token_id price size_usdc side now).1 = true := hallow
  obtain ⟨-, hminsz, hmkt, htot⟩ :=
    checkTradeVerdict_allowed (checkNewDay s cds) strategy condition_id
      token_id price size_usdc side now hv
  have hnd : (checkNewDay s cds).positions = s.positions := by simp
  by_cases hside : side = "BUY"
  · rw [if_pos hside] at hrp
    rw [checkNewDay_config] at hminsz
    have hszpos : 0 ≤ size_usdc := le_trans hmin hminsz
    refine ⟨?_, ?_, ?_⟩
    · intro p hmem
      rw [hrp, hup] at hmem
      rcases mem_setA hmem with hm | hm
      · exact hok.1 p hm
      · rw [hm]
        exact hszpos
    · rw [show totalExposure (registerTrade
          (checkTrade s strategy condition_id token_id price size_usdc
            side now cds).1
          strategy market_question condition_id token_id outcome side
          price size_shares size_usdc now₂).1 =
            sumBy (fun p => p.2.size_usdc)
              (setA s.positions
                (mkPosId strategy now₂
                  (checkTrade s strategy condition_id token_id price
                    size_usdc side now cds).1.positions.length)
                (mkTracked strategy market_question condition_id token_id
                  outcome side price size_shares size_usdc now₂)) by
          unfold totalExposure
          rw [hrp, hup]]
      have hb := sumBy_setA_le (fun p => p.2.size_usdc) s.positions
        (mkPosId strategy now₂
          (checkTrade s strategy condition_id token_id price size_usdc
            side now cds).1.positions.length)
        (mkTracked strategy market_question condition_id token_id outcome
          side price size_shares size_usdc now₂) hok.1
      have htot2 : totalExposure s + size_usdc ≤
          s.config.max_total_exposure := by
        have := htot hside
        rwa [totalExposure_congr hnd, show (checkNewDay s cds).config =
          s.config by simp] at this
      rw [hrc, huc]
      calc sumBy (fun p => p.2.size_usdc) (setA s.positions _ _)
          ≤ totalExposure s + size_usdc := hb
        _ ≤ s.config.max_total_exposure := htot2
    · intro c
      have hgnn : ∀ p ∈ s.positions,
          0 ≤ (fun q : String × TrackedPosition =>
            if q.2.condition_id = c then q.2.size_usdc else 0) p := by
        intro p hmem
        by_cases hcid : p.2.condition_id = c
        · simpa [hcid] using hok.1 p hmem
        · simp [hcid]
      rw [show marketExposure (registerTrade
          (checkTrade s strategy condition_id token_id price size_usdc
            side now cds).1
          strategy market_question condition_id token_id outcome side
          price size_shares size_usdc now₂).1 c =
            sumBy (fun q => if q.2.condition_id = c then q.2.size_usdc
              else 0)
              (setA s.positions
                (mkPosId strategy now₂
                  (checkTrade s strategy condition_id token_id price
                    size_usdc side now cds).1.positions.length)
                (mkTracked strategy market_question condition_id token_id
                  outcome side price size_shares size_usdc now₂)) by
          unfold marketExposure
          rw [hrp, hup]]
      have hb := sumBy_setA_le
        (fun q => if q.2.condition_id = c then q.2.size_usdc else 0)
        s.positions
        (mkPosId strategy now₂
          (checkTrade s strategy condition_id token_id price size_usdc
            side now cds).1.positions.length)
        (mkTracked strategy market_question condition_id token_id outcome
          side price size_shares size_usdc now₂) hgnn
      rw [hrc, huc]
      by_cases hc : condition_id = c
      · have hmkt2 : marketExposure s c + size_usdc ≤
            s.config.max_per_market := by
          have := hmkt hside
          rw [marketExposure_congr hnd, show (checkNewDay s cds).config =
            s.config by simp] at this
          rwa [hc] at this
        calc sumBy _ (setA s.positions _ _)
            ≤ marketExposure s c + size_usdc := by
              refine le_trans hb ?_
              simp [mkTracked, hc, marketExposure]
          _ ≤ s.config.max_per_market := hmkt2
      · calc sumBy _ (setA s.positions _ _)
            ≤ marketExposure s c + 0 := by
              refine le_trans hb ?_
              simp [mkTracked, hc, marketExposure]
          _ ≤ s.config.max_per_market := by
              simpa using hok.2.2 c
  · rw [if_neg hside] at hrp
    exact exposureOK_congr (by rw [hrp, hup]) (by rw [hrc, huc]) hok

/-- `close_position` keeps the exposure invariant. -/
theorem exposureOK_close (s : RiskState) (position_id : String)
    (exit_price pnl : ℚ) (hok : ExposureOK s) :
    ExposureOK (closePosition s position_id exit_price pnl).1 := by
  unfold closePosition
  cases hl : lookupA s.positions position_id with
  | none => exact hok
  | some pos =>
      dsimp only
      split <;>
      · refine ⟨?_, ?_, ?_⟩
        · intro p hmem
          exact hok.1 p (mem_removeA hmem)
        · exact le_trans
            (sumBy_removeA_le (fun p => p.2.size_usdc) s.positions
              position_id hok.1)
            hok.2.1
        · intro c
          refine le_trans
            (sumBy_removeA_le
              (fun q => if q.2.condition_id = c then q.2.size_usdc else 0)
              s.positions position_id ?_)
            (hok.2.2 c)
          intro p hmem
          by_cases hcid : p.2.condition_id = c
          · simpa [hcid] using hok.1 p hmem
          · simp [hcid]

/-- `closePosition` never changes the configuration. -/
theorem closePosition_config (s : RiskState) (position_id : String)
    (exit_price pnl : ℚ) :
    (closePosition s position_id exit_price pnl).1.config = s.config := by
  unfold closePosition
  cases lookupA s.positions position_id with
  | none => rfl
  | some pos =>
      dsimp only
      split <;> rfl

/-- Every ledger operation keeps the configuration and the exposure
invariant. -/
theorem riskStep_preserves {s t : RiskState} (h : RiskStep s t)
    (hmin : 0 ≤ s.config.min_trade_size) (hok : ExposureOK s) :
    t.config = s.config ∧ ExposureOK t := by
  cases h with
  | check strategy condition_id token_id price size_usdc side now cds =>
      obtain ⟨hp, hc, -, -⟩ :=
        checkTrade_frame s strategy condition_id token_id price size_usdc
          side now cds
      exact ⟨hc, exposureOK_congr hp hc hok⟩
  | admitTrade strategy market_question condition_id token_id outcome price
      size_shares size_usdc side now cds now₂ hallow =>
      obtain ⟨hup, huc, -, -⟩ :=
        checkTrade_frame s strategy condition_id token_id price size_usdc
          side now cds
      obtain ⟨hrc, -⟩ :=
        registerTrade_fields
          (checkTrade s strategy condition_id token_id price size_usdc
            side now cds).1
          strategy market_question condition_id token_id outcome side
          price size_shares size_usdc now₂
      exact ⟨by rw [hrc, huc],
        exposureOK_register s strategy market_question condition_id
          token_id outcome price size_shares size_usdc side now cds now₂
          hmin hallow hok⟩
  | close position_id exit_price pnl =>
      exact ⟨closePosition_config s position_id exit_price pnl,
        exposureOK_close s position_id exit_price pnl hok⟩

/-- C1: along every run of the ledger in which each `register_trade` is
covered by a `check_trade` call on the same market, side and notional
that returned `allowed = true`, and positions otherwise only leave the
ledger through `close_position`, the total exposure (sum of `size_usdc`
over open positions) never exceeds `max_total_exposure` and the exposure
of every single market never exceeds `max_per_market`. -/
theorem riskManager_exposure_invariant (cfg : RiskConfig) (day0 : ℚ)
    (s : RiskState) (cid : String)
    (hmin : 0 ≤ cfg.min_trade_size)
    (hpm : 0 ≤ cfg.max_per_market)
    (hte : 0 ≤ cfg.max_total_exposure)
    (htr : Reachable cfg day0 s) :
    totalExposure s ≤ cfg.max_total_exposure ∧
    marketExposure s cid ≤ cfg.max_per_market := by
  have main : s.config = cfg ∧ ExposureOK s := by
    unfold Reachable at htr
    induction htr with
    | refl =>
        refine ⟨rfl, ?_⟩
        unfold ExposureOK
        refine ⟨?_, ?_, ?_⟩
        · intro p hp
          simp [initState] at hp
        · simpa [totalExposure, sumBy, initState] using hte
        · intro c
          simpa [marketExposure, sumBy, initState] using hpm
    | tail hab hbc ih =>
        obtain ⟨hcfg, hok⟩ := ih
        obtain ⟨hc2, hok2⟩ :=
          riskStep_preserves hbc (by rw [hcfg]; exact hmin) hok
        exact ⟨by rw [hc2, hcfg], hok2⟩
  obtain ⟨hcfg, -, h2, h3⟩ := main
  rw [← hcfg]
  exact ⟨h2, h3 cid⟩

unseal Rat.add Rat.sub Rat.mul Rat.inv Rat.ofScientific in
/-- Witness for C1: a fresh ledger with the default configuration, after
one admitted BUY of $10 on market "m", respects both caps. -/
theorem riskManager_exposure_invariant_witness :
    0 ≤ defaultRiskConfig.min_trade_size ∧
    0 ≤ defaultRiskConfig.max_per_market ∧
    0 ≤ defaultRiskConfig.max_total_exposure ∧
    (totalExposure
        (registerTrade
          (checkTrade (initState defaultRiskConfig 0) "s" "m" "t" (1/2) 10
            "BUY" 100 0).1
          "s" "q" "m" "t" "up" "BUY" (1/2) 20 10 100).1 ≤
      defaultRiskConfig.max_total_exposure ∧
     marketExposure
        (registerTrade
          (checkTrade (initState defaultRiskConfig 0) "s" "m" "t" (1/2) 10
            "BUY" 100 0).1
          "s" "q" "m" "t" "up" "BUY" (1/2) 20 10 100).1 "m" ≤
      defaultRiskConfig.max_per_market) :=
  ⟨by decide, by decide, by decide,
   riskManager_exposure_invariant defaultRiskConfig 0 _ "m" (by decide)
     (by decide) (by decide)
     (Relation.ReflTransGen.single
       (RiskStep.admitTrade (initState defaultRiskConfig 0) "s" "q" "m" "t"
         "up" (1/2) 20 10 "BUY" 100 0 100 (by decide)))⟩

/-- Ledger operations whose `_check_new_day` calls all happen before the
wall clock crosses into the next UTC day (`register_trade` and
`close_position` never consult the day boundary at all). -/
inductive SameDayStep : RiskState → RiskState → Prop
  | check (s : RiskState) (strategy condition_id token_id : String)
      (price size_usdc : ℚ) (side : String) (now cds : ℚ)
      (hday : cds ≤ s.day_start) :
      SameDayStep s
        (checkTrade s strategy condition_id token_id price size_usdc side
          now cds).1
  | register (s : RiskState)
      (strategy market_question condition_id token_id outcome side :
        String)
      (price size_shares size_usdc : ℚ) (now : ℚ) :
      SameDayStep s
        (registerTrade s strategy market_question condition_id token_id
          outcome side price size_shares size_usdc now).1
  | close (s : RiskState) (position_id : String) (exit_price pnl : ℚ) :
      SameDayStep s (closePosition s position_id exit_price pnl).1

theorem registerTrade_halted (s : RiskState)
    (strategy market_question condition_id token_id outcome side : String)
    (price size_shares size_usdc : ℚ) (now : ℚ) :
    (registerTrade s strategy market_question condition_id token_id
        outcome side price size_shares size_usdc now).1.halted =
      s.halted := by
  unfold registerTrade
  dsimp only
  split <;> rfl

theorem registerTrade_daily_pnl (s : RiskState)
    (strategy market_question condition_id token_id outcome side : String)
    (price size_shares size_usdc : ℚ) (now : ℚ) :
    (registerTrade s strategy market_question condition_id token_id
        outcome side price size_shares size_usdc now).1.daily_pnl =
      s.daily_pnl := by
  unfold registerTrade
  dsimp only
  split <;> rfl

theorem closePosition_halted_mono (s : RiskState) (position_id : String)
    (exit_price pnl : ℚ) (hh : s.halted = true) :
    (closePosition s position_id exit_price pnl).1.halted = true := by
  unfold closePosition
  cases lookupA s.positions position_id with
  | none => exact hh
  | some pos =>
      dsimp only
      split <;> simpa using hh

/-- The session-halted predicate the circuit breaker maintains: daily
PnL at or below the negative loss limit forces the halted flag. -/
def HaltImplied (s : RiskState) : Prop :=
  s.daily_pnl ≤ -s.config.daily_loss_limit → s.halted = true

theorem haltImplied_checkTradeEffect (s₀ : RiskState) :
    HaltImplied (checkTradeEffect s₀) := by
  unfold HaltImplied checkTradeEffect
  split
  next h =>
    intro _
    rfl
  next h =>
    intro hp
    cases hb : s₀.halted
    · exact absurd ⟨hb, hp⟩ h
    · rfl

theorem haltImplied_closePosition (s : RiskState) (position_id : String)
    (exit_price pnl : ℚ) (hinv : HaltImplied s) :
    HaltImplied (closePosition s position_id exit_price pnl).1 := by
  unfold closePosition
  cases lookupA s.positions position_id with
  | none => exact hinv
  | some pos =>
      dsimp only
      unfold HaltImplied
      split
      next h =>
        intro _
        rfl
      next h =>
        intro hp
        exact absurd hp h

theorem haltImplied_registerTrade (s : RiskState)
    (strategy market_question condition_id token_id outcome side : String)
    (price size_shares size_usdc : ℚ) (now : ℚ) (hinv : HaltImplied s) :
    HaltImplied (registerTrade s strategy market_question condition_id
      token_id outcome side price size_shares size_usdc now).1 := by
  unfold HaltImplied
  rw [registerTrade_halted, registerTrade_daily_pnl,
    (registerTrade_fields s strategy market_question condition_id
      token_id outcome side price size_shares size_usdc now).1]
  exact hinv

/-- Every ledger operation keeps `HaltImplied`. -/
theorem riskStep_haltImplied {s t : RiskState} (h : RiskStep s t)
    (hinv : HaltImplied s) : HaltImplied t := by
  cases h with
  | check strategy condition_id token_id price size_usdc side now cds =>
      exact haltImplied_checkTradeEffect (checkNewDay s cds)
  | admitTrade strategy market_question condition_id token_id outcome price
      size_shares size_usdc side now cds now₂ hallow =>
      exact haltImplied_registerTrade _ _ _ _ _ _ _ _ _ _ _
        (haltImplied_checkTradeEffect (checkNewDay s cds))
  | close position_id exit_price pnl =>
      exact haltImplied_closePosition s position_id exit_price pnl hinv

/-- A halted session rejects any `check_trade` on the same UTC day with
the halt reason, and stays halted. -/
theorem checkTrade_halted_rejects (s : RiskState)
    (strategy condition_id token_id : String) (price size_usdc : ℚ)
    (side : String) (now cds : ℚ) (hh : s.halted = true)
    (hday : cds ≤ s.day_start) :
    (checkTrade s strategy condition_id token_id price size_usdc side now
        cds).2 = (false, Reason.halted) ∧
    (checkTrade s strategy condition_id token_id price size_usdc side now
        cds).1.halted = true := by
  have h0 : checkNewDay s cds = s := checkNewDay_same_day s cds hday
  unfold checkTrade checkTradeVerdict checkTradeEffect
  dsimp only
  rw [h0]
  constructor
  · rw [if_pos hh]
  · rw [if_neg (by simp [hh])]
    exact hh

/-- A same-day ledger operation never clears the halted flag. -/
theorem sameDayStep_halted {s t : RiskState} (h : SameDayStep s t)
    (hh : s.halted = true) : t.halted = true := by
  cases h with
  | check strategy condition_id token_id price size_usdc side now cds
      hday =>
      have h0 : checkNewDay s cds = s := checkNewDay_same_day s cds hday
      unfold checkTrade
      dsimp only
      rw [h0]
      unfold checkTradeEffect
      rw [if_neg (by simp [hh])]
      exact hh
  | register strategy market_question condition_id token_id outcome side
      price size_shares size_usdc now =>
      rw [registerTrade_halted]
      exact hh
  | close position_id exit_price pnl =>
      exact closePosition_halted_mono s position_id exit_price pnl hh

/-- C2: in any reachable ledger state whose daily PnL is at or below
minus `daily_loss_limit` the halted flag is set; a halted state rejects
every `check_trade` on the same UTC day with the halt reason and stays
halted across same-day operations; and the first `_check_new_day` after
the wall clock crosses into a new UTC day resets the halted flag to
false and the daily PnL and trade counters to zero. -/
theorem riskManager_daily_halt (cfg : RiskConfig) (day0 : ℚ)
    (s t : RiskState) (strategy condition_id token_id : String)
    (price size_usdc : ℚ) (side : String) (now cds : ℚ)
    (hlim : 0 < cfg.daily_loss_limit)
    (htr : Reachable cfg day0 s) :
    (s.daily_pnl ≤ -s.config.daily_loss_limit → s.halted = true) ∧
    (s.halted = true → cds ≤ s.day_start →
      (checkTrade s strategy condition_id token_id price size_usdc side
          now cds).2 = (false, Reason.halted) ∧
      (checkTrade s strategy condition_id token_id price size_usdc side
          now cds).1.halted = true) ∧
    (s.halted = true → SameDayStep s t → t.halted = true) ∧
    (s.day_start < cds →
      (checkNewDay s cds).halted = false ∧
      (checkNewDay s cds).daily_pnl = 0 ∧
      (checkNewDay s cds).daily_trades = 0) := by
  refine ⟨?_, ?_, ?_, ?_⟩
  · unfold Reachable at htr
    have hconf : HaltImplied s := by
      induction htr with
      | refl =>
          intro hp
          exfalso
          have hp2 : (0 : ℚ) ≤ -cfg.daily_loss_limit := hp
          linarith
      | tail hab hbc ih => exact riskStep_haltImplied hbc ih
    exact hconf
  · intro hh hday
    exact checkTrade_halted_rejects s strategy condition_id token_id
      price size_usdc side now cds hh hday
  · intro hh hstep
    exact sameDayStep_halted hstep hh
  · intro hroll
    unfold checkNewDay
    rw [if_pos hroll]
    exact ⟨rfl, rfl, rfl⟩

/-- A fresh default-config ledger that admitted one $10 BUY on market
"m" (generated position id `s_100_0`). -/
def openLedgerExample : RiskState :=
  (registerTrade
    (checkTrade (initState defaultRiskConfig 0) "s" "m" "t" (1/2) 10
      "BUY" 100 0).1
    "s" "q" "m" "t" "up" "BUY" (1/2) 20 10 100).1

/-- `openLedgerExample` after closing its position for a $60 loss,
tripping the circuit breaker (daily loss limit $50). -/
def haltedLedgerExample : RiskState :=
  (closePosition openLedgerExample "s_100_0" (1/5) (-60)).1

unseal Rat.add Rat.sub Rat.mul Rat.inv Rat.ofScientific in
/-- Witness for C2: after the $60 losing close the daily PnL is −60 ≤
−50, the breaker is tripped, and a same-day `check_trade` is rejected
with the halt reason. -/
theorem riskManager_daily_halt_witness :
    0 < defaultRiskConfig.daily_loss_limit ∧
    haltedLedgerExample.daily_pnl ≤
      -haltedLedgerExample.config.daily_loss_limit ∧
    haltedLedgerExample.halted = true ∧
    (checkTrade haltedLedgerExample "s" "m" "t" (1/2) 10 "BUY" 200
        0).2 = (false, Reason.halted) := by
  have htrace : Reachable defaultRiskConfig 0 haltedLedgerExample :=
    Relation.ReflTransGen.tail
      (Relation.ReflTransGen.single
        (RiskStep.admitTrade (initState defaultRiskConfig 0) "s" "q" "m" "t"
          "up" (1/2) 20 10 "BUY" 100 0 100 (by decide)))
      (RiskStep.close _ "s_100_0" (1/5) (-60))
  have h := riskManager_daily_halt defaultRiskConfig 0
    haltedLedgerExample haltedLedgerExample "s" "m" "t" (1/2) 10 "BUY"
    200 0 (by decide) htrace
  have hp : haltedLedgerExample.daily_pnl ≤
      -haltedLedgerExample.config.daily_loss_limit := by decide
  exact ⟨by decide, hp, h.1 hp, (h.2.1 (h.1 hp) (by decide)).1⟩

/-- C3: the `(allowed, reason)` pair `check_trade` returns is the first
failing entry of the twelve risk checks, evaluated in the source's order
(session halted; daily loss; daily trade count; notional below minimum;
notional above maximum; price below minimum; price above maximum;
position count, per-market exposure and total exposure for BUY only;
global cooldown; per-market cooldown), or `(true, ok)` when none fail. -/
theorem checkTrade_first_failing (s : RiskState)
    (strategy condition_id token_id : String) (price size_usdc : ℚ)
    (side : String) (now cds : ℚ) :
    (checkTrade s strategy condition_id token_id price size_usdc side now
        cds).2 =
      match firstFail (checkConditions (checkNewDay s cds) condition_id
          price size_usdc side now) with
      | none => (true, Reason.ok)
      | some r => (false, r) := by
  have key : ∀ s₀ : RiskState,
      checkTradeVerdict s₀ strategy condition_id token_id price size_usdc
          side now =
        match firstFail (checkConditions s₀ condition_id price size_usdc
            side now) with
        | none => (true, Reason.ok)
        | some r => (false, r) := by
    intro s₀
    by_cases h1 : s₀.halted = true
    · simp [checkTradeVerdict, checkConditions, firstFail, h1]
    by_cases h2 : s₀.daily_pnl ≤ -s₀.config.daily_loss_limit
    · simp [checkTradeVerdict, checkConditions, firstFail, h1, h2]
    by_cases h3 : s₀.daily_trades ≥ s₀.config.daily_trade_limit
    · simp [checkTradeVerdict, checkConditions, firstFail, h1, h2, h3]
    by_cases h4 : size_usdc < s₀.config.min_trade_size
    · simp [checkTradeVerdict, checkConditions, firstFail, h1, h2, h3, h4]
    by_cases h5 : size_usdc > s₀.config.max_trade_size
    · simp [checkTradeVerdict, checkConditions, firstFail, h1, h2, h3, h4,
        h5]
    by_cases h6 : price < s₀.config.min_price
    · simp [checkTradeVerdict, checkConditions, firstFail, h1, h2, h3, h4,
        h5, h6]
    by_cases h7 : price > s₀.config.max_price
    · simp [checkTradeVerdict, checkConditions, firstFail, h1, h2, h3, h4,
        h5, h6, h7]
    by_cases h8 : side = "BUY" ∧ positionCount s₀ ≥ s₀.config.max_positions
    · simp [checkTradeVerdict, checkConditions, firstFail, h1, h2, h3, h4,
        h5, h6, h7, h8]
    by_cases h9 : side = "BUY" ∧
        marketExposure s₀ condition_id + size_usdc >
          s₀.config.max_per_market
    · have h8b : ¬s₀.config.max_positions ≤ positionCount s₀ :=
        fun hc => h8 ⟨h9.1, hc⟩
      simp [checkTradeVerdict, checkConditions, firstFail, h1, h2, h3, h4,
        h5, h6, h7, h8, h8b, h9]
    by_cases h10 : side = "BUY" ∧
        totalExposure s₀ + size_usdc > s₀.config.max_total_exposure
    · have h8b : ¬s₀.config.max_positions ≤ positionCount s₀ :=
        fun hc => h8 ⟨h10.1, hc⟩
      have h9b : ¬s₀.config.max_per_market <
          marketExposure s₀ condition_id + size_usdc :=
        fun hc => h9 ⟨h10.1, hc⟩
      simp [checkTradeVerdict, checkConditions, firstFail, h1, h2, h3, h4,
        h5, h6, h7, h8, h8b, h9, h9b, h10]
    by_cases h11 : now - s₀.last_trade_time < s₀.config.global_cooldown
    · simp [checkTradeVerdict, checkConditions, firstFail, h1, h2, h3, h4,
        h5, h6, h7, h8, h9, h10, h11]
    by_cases h12 : now - ((lookupA s₀.last_trade_by_market
        condition_id).getD 0) < s₀.config.trade_cooldown
    · simp [checkTradeVerdict, checkConditions, firstFail, h1, h2, h3, h4,
        h5, h6, h7, h8, h9, h10, h11, h12]
    simp [checkTradeVerdict, checkConditions, firstFail, h1, h2, h3, h4,
      h5, h6, h7, h8, h9, h10, h11, h12]
  exact key (checkNewDay s cds)

unseal Rat.add Rat.sub Rat.mul Rat.inv Rat.ofScientific in
/-- C4: `check_trade` never mutates the position ledger, the global
cooldown clock or the per-market cooldown clocks, whatever its
arguments and result; in particular, with the default configuration
(`max_trade_size = 25`, `default_trade_size = 10`) a fresh ledger rejects
a notional of 30 with the size-limit reason and leaves both cooldown
clocks untouched. -/
theorem checkTrade_no_mutation (s : RiskState)
    (strategy condition_id token_id : String) (price size_usdc : ℚ)
    (side : String) (now cds : ℚ) :
    ((checkTrade s strategy condition_id token_id price size_usdc side
        now cds).1.positions = s.positions ∧
     (checkTrade s strategy condition_id token_id price size_usdc side
        now cds).1.last_trade_time = s.last_trade_time ∧
     (checkTrade s strategy condition_id token_id price size_usdc side
        now cds).1.last_trade_by_market = s.last_trade_by_market) ∧
    ((checkTrade (initState defaultRiskConfig 0) "s" "m" "t" (1/2) 30
        "BUY" 100 0).2 = (false, Reason.tradeTooLarge) ∧
     (checkTrade (initState defaultRiskConfig 0) "s" "m" "t" (1/2) 30
        "BUY" 100 0).1.last_trade_time =
       (initState defaultRiskConfig 0).last_trade_time ∧
     (checkTrade (initState defaultRiskConfig 0) "s" "m" "t" (1/2) 30
        "BUY" 100 0).1.last_trade_by_market =
       (initState defaultRiskConfig 0).last_trade_by_market) := by
  obtain ⟨hp, -, hl, hm⟩ := checkTrade_frame s strategy condition_id
    token_id price size_usdc side now cds
  exact ⟨⟨hp, hl, hm⟩, by decide, by decide, by decide⟩

/-- C10: `close_position` called with a position id that is not in the
ledger returns `None` and leaves the whole risk state (positions, daily
PnL, trade counter, halted flag, halt reason, cooldown clocks)
unchanged. -/
theorem closePosition_unknown_id (s : RiskState) (position_id : String)
    (exit_price realized_pnl : ℚ)
    (h : lookupA s.positions position_id = none) :
    closePosition s position_id exit_price realized_pnl = (s, none) := by
  unfold closePosition
  rw [h]

unseal Rat.add Rat.sub Rat.mul Rat.inv Rat.ofScientific in
/-- Witness for C10: a ledger holding the position `s_100_0` is returned
unchanged, with `None`, when asked to close the unknown id `nope`. -/
theorem closePosition_unknown_id_witness :
    lookupA openLedgerExample.positions "nope" = none ∧
    closePosition openLedgerExample "nope" 1 2 =
      (openLedgerExample, none) :=
  ⟨by decide,
   closePosition_unknown_id openLedgerExample "nope" 1 2 (by decide)⟩

/-- A `LiveMarket` whose reference price sits exactly at its baseline
and whose two asks are equal, giving both sides the same positive edge
under the contrarian fair value. -/
def tieMarket : LiveMarket where
  coin := "BTC"
  slug := ""
  condition_id := "m"
  up_token := "u"
  down_token := "d"
  end_time := 1000
  up_bid := 1/2
  up_ask := 2/5
  down_bid := 1/2
  down_ask := 2/5
  ref_price := 100
  start_price := 100
  binance_ticks := 5
  poly_ticks := 0

unseal Rat.add Rat.sub Rat.mul Rat.inv Rat.ofScientific in
/-- C5 counterexample: on a market where both sides carry the same
positive edge (fair value (0.5, 0.5) against equal asks of 0.40),
`get_edge` returns the "down" side — the `elif` branch — not the
first-evaluated "up" side the claim names.  `expLin` agrees with the
exponential at 0, the only point where it is evaluated here. -/
theorem getEdge_tie_selects_down :
    LiveMarket.upEdge expLin tieMarket =
      LiveMarket.downEdge expLin tieMarket ∧
    0 < LiveMarket.upEdge expLin tieMarket ∧
    LiveMarket.getEdge expLin tieMarket =
      some (Side.down, LiveMarket.downEdge expLin tieMarket,
        (LiveMarket.fairValue expLin tieMarket).2, tieMarket.down_ask,
        tieMarket.down_token) := by
  decide

/-- C5 amended: a side's edge is considered only while its ask is below
0.95 (at or above it the side's edge is pinned to −1 and the side cannot
win); the side with the strictly larger positive edge is selected; no
positive edge means no opportunity; and an exact tie of positive edges
selects the "down" side (the branch evaluated second), not "up". -/
theorem getEdge_selection (expf : ℚ → ℚ) (m : LiveMarket)
    (hd : LiveMarket.hasData m = true) :
    (LiveMarket.upEdge expf m > LiveMarket.downEdge expf m ∧
        LiveMarket.upEdge expf m > 0 →
      LiveMarket.getEdge expf m = some (Side.up,
        LiveMarket.upEdge expf m, (LiveMarket.fairValue expf m).1,
        m.up_ask, m.up_token)) ∧
    (¬(LiveMarket.upEdge expf m > LiveMarket.downEdge expf m ∧
        LiveMarket.upEdge expf m > 0) →
      LiveMarket.downEdge expf m > 0 →
      LiveMarket.getEdge expf m = some (Side.down,
        LiveMarket.downEdge expf m, (LiveMarket.fairValue expf m).2,
        m.down_ask, m.down_token)) ∧
    (LiveMarket.upEdge expf m ≤ 0 → LiveMarket.downEdge expf m ≤ 0 →
      LiveMarket.getEdge expf m = none) ∧
    (LiveMarket.upEdge expf m = LiveMarket.downEdge expf m →
      0 < LiveMarket.upEdge expf m →
      LiveMarket.getEdge expf m = some (Side.down,
        LiveMarket.downEdge expf m, (LiveMarket.fairValue expf m).2,
        m.down_ask, m.down_token)) ∧
    ((0.95 : ℚ) ≤ m.up_ask → LiveMarket.upEdge expf m = -1) ∧
    ((0.95 : ℚ) ≤ m.up_ask → (0.95 : ℚ) ≤ m.down_ask →
      LiveMarket.getEdge expf m = none) := by
  have hne : ¬(LiveMarket.hasData m = false) := by simp [hd]
  refine ⟨?_, ?_, ?_, ?_, ?_, ?_⟩
  · intro hcond
    unfold LiveMarket.getEdge
    rw [if_neg hne, if_pos hcond]
  · intro hcond hdown
    unfold LiveMarket.getEdge
    rw [if_neg hne, if_neg hcond, if_pos hdown]
  · intro hu hdn
    unfold LiveMarket.getEdge
    rw [if_neg hne,
      if_neg (fun hc => absurd hc.2 (not_lt.mpr hu)),
      if_neg (not_lt.mpr hdn)]
  · intro heq hpos
    unfold LiveMarket.getEdge
    rw [if_neg hne,
      if_neg (fun hc => absurd (heq ▸ hc.1) (lt_irrefl _)),
      if_pos (heq ▸ hpos)]
  · intro hge
    unfold LiveMarket.upEdge
    rw [if_neg (not_lt.mpr hge)]
  · intro hu hd2
    have e1 : LiveMarket.upEdge expf m = -1 := by
      unfold LiveMarket.upEdge
      rw [if_neg (not_lt.mpr hu)]
    have e2 : LiveMarket.downEdge expf m = -1 := by
      unfold LiveMarket.downEdge
      rw [if_neg (not_lt.mpr hd2)]
    unfold LiveMarket.getEdge
    rw [if_neg hne,
      if_neg (fun hc => by rw [e1] at hc; exact absurd hc.2 (by norm_num)),
      if_neg (by rw [e2]; norm_num)]

unseal Rat.add Rat.sub Rat.mul Rat.inv Rat.ofScientific in
/-- Witness for C5's amended claim, exercised on `tieMarket`: the tie
clause applies and yields the "down" side. -/
theorem getEdge_selection_witness :
    LiveMarket.hasData tieMarket = true ∧
    (LiveMarket.upEdge expLin tieMarket =
        LiveMarket.downEdge expLin tieMarket ∧
      0 < LiveMarket.upEdge expLin tieMarket) ∧
    LiveMarket.getEdge expLin tieMarket =
      some (Side.down, LiveMarket.downEdge expLin tieMarket,
        (LiveMarket.fairValue expLin tieMarket).2, tieMarket.down_ask,
        tieMarket.down_token) := by
  refine ⟨by decide, ⟨by decide, by decide⟩, ?_⟩
  exact (getEdge_selection expLin tieMarket (by decide)).2.2.2.1
    (by decide) (by decide)

/-- The momentum scenario of the spec run against the momentum variant
`Market` of `apps/realtime_trader.py`: baseline 100, latest reference
price 103, best ask 0.80 on the "up" side. -/
def momentumScenario : Market where
  coin := "BTC"
  up_token := "u"
  down_token := "d"
  end_time := 1000
  up_bid := 0
  up_ask := 4/5
  down_bid := 0
  down_ask := 1
  ref_price := 103
  start_price := 100

unseal Rat.add Rat.sub Rat.mul Rat.inv Rat.ofScientific in
/-- C6 counterexample: on the +3% momentum scenario the linear fair
value `0.5 + pct·40` saturates the clamp at 0.9 — the up-probability is
exactly 0.9, it does not exceed 0.9 and is not 0.92 — and the edge
against an 0.80 ask is 0.10, not 0.12. -/
theorem momentum_scenario_counterexample :
    (Market.fairValue momentumScenario).1 = 9/10 ∧
    ¬(9/10 < (Market.fairValue momentumScenario).1) ∧
    (Market.fairValue momentumScenario).1 ≠ 92/100 ∧
    Market.upEdge momentumScenario = 1/10 ∧
    Market.upEdge momentumScenario ≠ 12/100 := by
  decide

unseal Rat.add Rat.sub Rat.mul Rat.inv Rat.ofScientific in
/-- C6 amended: under the momentum configuration (the linear model of
`realtime_trader.py`, clamped to `[0.1, 0.9]`), baseline 100 and
reference 103 give an up-probability clamped at 0.9; with a best ask of
0.80 the edge is 0.9 − 0.80 = 0.10, which exceeds the 0.04 threshold,
so the opportunity on "up" is detected. -/
theorem momentum_scenario_amended :
    (Market.fairValue momentumScenario).1 = 9/10 ∧
    Market.getEdge momentumScenario = some (Side.up, 1/10, 9/10, 4/5) ∧
    (4/100 : ℚ) ≤ Market.upEdge momentumScenario := by
  decide

/-- C7: for positive baseline and reference prices, both fair-value
variants return a probability pair inside `[0.08, 0.92]` (the logistic
variant clamps to exactly that band; the linear variant clamps to the
tighter `[0.1, 0.9]`, which lies inside it) whose components sum to
exactly 1. -/
theorem fairValue_clamped (expf : ℚ → ℚ) (m : LiveMarket) (mm : Market)
    (h1 : 0 < m.ref_price) (h2 : 0 < m.start_price)
    (h3 : 0 < mm.ref_price) (h4 : 0 < mm.start_price) :
    ((0.08 : ℚ) ≤ (LiveMarket.fairValue expf m).1 ∧
     (LiveMarket.fairValue expf m).1 ≤ (0.92 : ℚ) ∧
     (0.08 : ℚ) ≤ (LiveMarket.fairValue expf m).2 ∧
     (LiveMarket.fairValue expf m).2 ≤ (0.92 : ℚ) ∧
     (LiveMarket.fairValue expf m).1 + (LiveMarket.fairValue expf m).2 =
       1) ∧
    ((0.08 : ℚ) ≤ (Market.fairValue mm).1 ∧
     (Market.fairValue mm).1 ≤ (0.92 : ℚ) ∧
     (0.08 : ℚ) ≤ (Market.fairValue mm).2 ∧
     (Market.fairValue mm).2 ≤ (0.92 : ℚ) ∧
     (Market.fairValue mm).1 + (Market.fairValue mm).2 = 1) := by
  constructor
  · unfold LiveMarket.fairValue
    rw [if_neg (not_or.mpr ⟨not_le.mpr h1, not_le.mpr h2⟩)]
    dsimp only
    set u := max (0.08 : ℚ) (min 0.92
      (1 / (1 + expf (300 *
        ((m.ref_price - m.start_price) / m.start_price))))) with hu
    have hge : (0.08 : ℚ) ≤ u := le_max_left _ _
    have hle : u ≤ (0.92 : ℚ) := max_le (by norm_num) (min_le_left _ _)
    refine ⟨hge, hle, by linarith, by linarith, by ring⟩
  · unfold Market.fairValue
    rw [if_neg (not_or.mpr ⟨not_le.mpr h3, not_le.mpr h4⟩)]
    dsimp only
    set u := max (0.1 : ℚ) (min 0.9
      (0.5 + (mm.ref_price - mm.start_price) / mm.start_price * 40))
      with hu
    have hge : (0.1 : ℚ) ≤ u := le_max_left _ _
    have hle : u ≤ (0.9 : ℚ) := max_le (by norm_num) (min_le_left _ _)
    refine ⟨by linarith, by linarith, by linarith, by linarith, by ring⟩

unseal Rat.add Rat.sub Rat.mul Rat.inv Rat.ofScientific in
/-- Witness for C7 on `tieMarket` (logistic variant, with `expLin` for
the exponential) and `momentumScenario` (linear variant). -/
theorem fairValue_clamped_witness :
    (0 < tieMarket.ref_price ∧ 0 < tieMarket.start_price ∧
     0 < momentumScenario.ref_price ∧ 0 < momentumScenario.start_price) ∧
    (((0.08 : ℚ) ≤ (LiveMarket.fairValue expLin tieMarket).1 ∧
      (LiveMarket.fairValue expLin tieMarket).1 ≤ (0.92 : ℚ) ∧
      (0.08 : ℚ) ≤ (LiveMarket.fairValue expLin tieMarket).2 ∧
      (LiveMarket.fairValue expLin tieMarket).2 ≤ (0.92 : ℚ) ∧
      (LiveMarket.fairValue expLin tieMarket).1 +
        (LiveMarket.fairValue expLin tieMarket).2 = 1) ∧
     ((0.08 : ℚ) ≤ (Market.fairValue momentumScenario).1 ∧
      (Market.fairValue momentumScenario).1 ≤ (0.92 : ℚ) ∧
      (0.08 : ℚ) ≤ (Market.fairValue momentumScenario).2 ∧
      (Market.fairValue momentumScenario).2 ≤ (0.92 : ℚ) ∧
      (Market.fairValue momentumScenario).1 +
        (Market.fairValue momentumScenario).2 = 1)) :=
  ⟨⟨by decide, by decide, by decide, by decide⟩,
   fairValue_clamped expLin tieMarket momentumScenario (by decide)
     (by decide) (by decide) (by decide)⟩

unseal Rat.add Rat.sub Rat.mul Rat.inv Rat.ofScientific in
/-- C8 counterexample: on a tick with zero seconds remaining and the bid
at the entry price, the per-tick exit check of `_check_exit` exits
nothing, while the claimed five-reason priority chain would exit with
`market_expired`; `market_expired` closes only happen in the separate
refresh loop. -/
theorem exit_priority_counterexample :
    exitDecision 0.08 0.08 0.30 0.30 0.30 0 = none ∧
    claimedExitOrder 0.08 0.08 0.30 0.30 0.30 0 =
      some ExitReason.market_expired := by
  decide

/-- A label returned by `firstFail` is a label of the list. -/
theorem firstFail_mem {α : Type} (l : List (Bool × α)) (r : α)
    (h : firstFail l = some r) : r ∈ l.map Prod.snd := by
  induction l with
  | nil => simp [firstFail] at h
  | cons hd tl ih =>
      rcases hd with ⟨b, a⟩
      unfold firstFail at h
      by_cases hb : b = true
      · rw [if_pos hb] at h
        injection h with h
        simp [h]
      · rw [if_neg hb] at h
        simp [ih h]

/-- The ordered list of the four per-tick exit checks of `_check_exit`,
with the high-water mark already raised to `max peak0 bid`. -/
def exitConditions (tp sl entry peak0 bid : ℚ) (secsLeft : ℕ) :
    List (Bool × ExitReason) :=
  [ (decide (bid - entry ≥ tp), .take_profit),
    (decide (bid - entry ≤ -sl), .stop_loss),
    (decide (secsLeft ≤ 60 ∧ 0 < secsLeft), .market_closing),
    (decide (max peak0 bid - entry ≥ (0.05 : ℚ) ∧
       max peak0 bid - bid ≥ (0.03 : ℚ)), .trailing_stop) ]

unseal Rat.add Rat.sub Rat.mul Rat.inv Rat.ofScientific in
/-- C8 amended: per tick, exit reasons are checked in the priority order
take-profit, stop-loss, market-closing (≤ 60 s and > 0 s), trailing-stop
— the first match wins, at most one exit per tick — and the per-tick
check never produces `market_expired` (forced expiry closes live only in
the periodic refresh loop, modelled by `refreshForceClose`).  The
scenario holds: entry 0.30 with thresholds 0.08, a bid of 0.39 takes
profit, a bid of 0.21 stops out, and any bid within `[0.23, 0.37]`
triggers neither. -/
theorem exitDecision_priority (tp sl entry peak0 bid : ℚ)
    (secsLeft : ℕ) :
    (exitDecision tp sl entry peak0 bid secsLeft =
      if bid ≤ 0 then none
      else firstFail (exitConditions tp sl entry peak0 bid secsLeft)) ∧
    exitDecision tp sl entry peak0 bid secsLeft ≠
      some ExitReason.market_expired ∧
    (refreshForceClose tieMarket 998 true = some ExitReason.market_expired) ∧
    exitDecision 0.08 0.08 0.30 0.30 0.39 500 =
      some ExitReason.take_profit ∧
    exitDecision 0.08 0.08 0.30 0.30 0.21 500 =
      some ExitReason.stop_loss ∧
    ((0.23 : ℚ) ≤ bid → bid ≤ (0.37 : ℚ) →
      exitDecision 0.08 0.08 0.30 0.30 bid 500 = none) := by
  have hmain : ∀ tp sl entry peak0 bid : ℚ, ∀ secs : ℕ,
      exitDecision tp sl entry peak0 bid secs =
        if bid ≤ 0 then none
        else firstFail (exitConditions tp sl entry peak0 bid secs) := by
    intro tp sl entry peak0 bid secs
    unfold exitDecision exitConditions
    by_cases h0 : bid ≤ 0
    · simp [h0]
    rw [if_neg h0, if_neg h0]
    dsimp only
    by_cases hc1 : bid - entry ≥ tp
    · simp [firstFail, hc1]
    by_cases hc2 : bid - entry ≤ -sl
    · simp [firstFail, hc1, hc2]
    by_cases hc3 : secs ≤ 60 ∧ 0 < secs
    · simp [firstFail, hc1, hc2, hc3]
    by_cases hc4 : max peak0 bid - entry ≥ (0.05 : ℚ) ∧
        max peak0 bid - bid ≥ (0.03 : ℚ)
    · simp [firstFail, hc1, hc2, hc3, hc4]
    simp [firstFail, hc1, hc2, hc3, hc4]
  refine ⟨hmain tp sl entry peak0 bid secsLeft, ?_, by decide, by decide,
    by decide, ?_⟩
  · intro hexp
    rw [hmain] at hexp
    by_cases h0 : bid ≤ 0
    · rw [if_pos h0] at hexp
      exact Option.noConfusion hexp
    rw [if_neg h0] at hexp
    have hm := firstFail_mem _ _ hexp
    simp [exitConditions] at hm
  · intro h23 h37
    rw [hmain]
    rw [if_neg (not_le.mpr (lt_of_lt_of_le (by norm_num) h23))]
    have hc1 : ¬(bid - (0.30 : ℚ) ≥ (0.08 : ℚ)) := by
      intro hc
      have : (0.38 : ℚ) ≤ bid := by linarith
      linarith
    have hc2 : ¬(bid - (0.30 : ℚ) ≤ -(0.08 : ℚ)) := by
      intro hc
      linarith
    have hc3 : ¬((500 : ℕ) ≤ 60 ∧ 0 < (500 : ℕ)) := by decide
    have hc4 : ¬(max (0.30 : ℚ) bid - (0.30 : ℚ) ≥ (0.05 : ℚ) ∧
        max (0.30 : ℚ) bid - bid ≥ (0.03 : ℚ)) := by
      rcases le_total bid (0.30 : ℚ) with hb | hb
      · rw [max_eq_left hb]
        intro hc
        have := hc.1
        norm_num at this
      · rw [max_eq_right hb]
        intro hc
        have := hc.2
        norm_num at this
    simp [exitConditions, firstFail, hc1, hc2, hc3, hc4]

unseal Rat.add Rat.sub Rat.mul Rat.inv Rat.ofScientific in
/-- Witness for C8's amended claim at the scenario inputs, including a
bid of 0.30 inside the no-trigger band. -/
theorem exitDecision_priority_witness :
    ((0.23 : ℚ) ≤ (0.30 : ℚ) ∧ (0.30 : ℚ) ≤ (0.37 : ℚ)) ∧
    exitDecision 0.08 0.08 0.30 0.30 0.39 500 =
      some ExitReason.take_profit ∧
    exitDecision 0.08 0.08 0.30 0.30 0.30 500 = none := by
  have h := exitDecision_priority 0.08 0.08 0.30 0.30 0.30 500
  exact ⟨⟨by decide, by decide⟩, h.2.2.2.1,
    h.2.2.2.2.2 (by decide) (by decide)⟩

/-- The order-book snapshot message used for the C9 counterexample:
addressed to `tieMarket`'s "up" token, top levels 0.40 bid / 0.60 ask. -/
def bookMsgExample : BookMsg where
  asset_id := "u"
  bids := [Level.pair (2/5) 10]
  asks := [Level.pair (3/5) 5]

unseal Rat.add Rat.sub Rat.mul Rat.inv Rat.ofScientific in
/-- C9 counterexample: applying the same snapshot twice is not
idempotent on the whole market state — the second application bumps the
poly-feed tick counter again, so the states differ. -/
theorem onBook_twice_counterexample :
    onBook (onBook tieMarket bookMsgExample) bookMsgExample ≠
      onBook tieMarket bookMsgExample ∧
    (onBook (onBook tieMarket bookMsgExample)
        bookMsgExample).poly_ticks =
      (onBook tieMarket bookMsgExample).poly_ticks + 1 := by
  decide

/-- C9 amended: re-applying the same order-book snapshot leaves every
price field (and the other feed's counters) unchanged and only
increments `poly_ticks` once more when the message addresses one of the
market's tokens. -/
theorem onBook_idempotent_except_ticks (m : LiveMarket) (d : BookMsg) :
    onBook (onBook m d) d =
      { (onBook m d) with
          poly_ticks := (onBook m d).poly_ticks +
            (if d.asset_id = m.up_token ∨ d.asset_id = m.down_token
              then 1 else 0) } := by
  by_cases hu : d.asset_id = m.up_token
  · unfold onBook
    rw [if_pos hu]
    dsimp only
    rw [if_pos hu, if_pos (Or.inl hu)]
    cases bestPrice d.bids <;> cases bestPrice d.asks <;> simp
  · by_cases hd2 : d.asset_id = m.down_token
    · unfold onBook
      rw [if_neg hu, if_pos hd2]
      dsimp only
      rw [if_neg hu, if_pos hd2, if_pos (Or.inr hd2)]
      cases bestPrice d.bids <;> cases bestPrice d.asks <;> simp
    · unfold onBook
      rw [if_neg hu, if_neg hd2]
      dsimp only
      rw [if_neg hu, if_neg hd2,
        if_neg (by rintro (h | h); exacts [hu h, hd2 h])]
      simp

end PolymarketTrader
